import Mathlib

/-!
Verification of the Authentication & Ownership-Isolation core of the
Task-Management-System repository, as a shallow embedding in Lean 4.

Conventions of the embedding:
* C# strings are Lean `String`; a C# `null` string is folded into the
  blank case (`String.IsNullOrWhiteSpace` is true of null, empty and
  whitespace-only strings, and the code under study only ever branches
  on that predicate before using a string).
* C# `int` is Lean `Int` (overflow plays no role in the verified paths:
  ids are compared and copied, never arithmetically combined).
* `DateTime` instants are `Int` values measured in minutes.
* Asynchronous methods are modelled as pure state-passing functions:
  the Entity-Framework stores (`DbSet<User>`, `DbSet<Task>`) become
  `List User` / `List Task` values threaded through the operations.
* Fallible library calls are modelled with `Except` / `Option`.
-/

namespace TaskMgmt

/-- Model of `string.IsNullOrWhiteSpace` (true on null, empty, or
whitespace-only strings; C# null is folded into the empty string). -/
def isNullOrWhiteSpace (s : String) : Bool :=
  s.data.all fun c => c.isWhitespace

/-! ## Credential hasher (src/unnamed/part_020, `PasswordService`)

The BCrypt.Net library is external to the repository.  Its observable
structure is modelled faithfully: a *well-formed* bcrypt hash value is a
self-describing record embedding the work factor, the salt and the
digest (in the real `$2a$…` string all three are printed into the
output), and `BCrypt.Verify` recomputes the digest from the plaintext
and the parameters embedded in the hash, throwing on a hash it cannot
parse.  The digest computation itself is kept abstract as a parameter
`digestFn`, so every theorem below holds for *every* digest function,
in particular the real bcrypt one. -/

/-- A well-formed bcrypt hash value: work factor, salt and digest are
all embedded in the output (self-describing hash). -/
structure BcryptHash where
  workFactor : Nat
  salt : Nat
  digest : Nat
deriving DecidableEq, Repr

/-- The domain of C# strings passed as a hash argument: either a
well-formed bcrypt hash value or arbitrary other text. -/
inductive HashInput where
  | wellFormed (h : BcryptHash)
  | malformed (raw : String)
deriving DecidableEq, Repr

/-- The check `IsNullOrWhiteSpace` on the hash-argument domain: a well-formed
bcrypt hash string is never blank. -/
def HashInput.isBlank : HashInput → Bool
  | .wellFormed _ => false
  | .malformed raw => isNullOrWhiteSpace raw

/-- The digest computation of the external bcrypt library, abstract:
plaintext → salt → work factor → digest. -/
abbrev DigestFn := String → Nat → Nat → Nat

/-- Model of `BCrypt.Net.BCrypt.HashPassword(password, workFactor)` at a
given salt: the library draws a fresh random salt per call and embeds
it, together with the work factor and the digest, in the output. -/
def bcryptHashPassword (digestFn : DigestFn) (password : String)
    (workFactor salt : Nat) : BcryptHash :=
  ⟨workFactor, salt, digestFn password salt workFactor⟩

/-- Model of `BCrypt.Net.BCrypt.Verify(password, hash)`: throws on a
hash it cannot parse, otherwise recomputes the digest from the
parameters embedded in the hash and compares. -/
def bcryptVerify (digestFn : DigestFn) (password : String) :
    HashInput → Except String Bool
  | .malformed _ => .error ("SaltParseException")
  | .wellFormed h => .ok (digestFn password h.salt h.workFactor == h.digest)

/-- Constant `PasswordService.WorkFactor` (src/unnamed/part_020 line 8). -/
def WorkFactor : Nat := 12

/-- Method `PasswordService.HashPassword` (src/unnamed/part_020 lines 10–18):
throws `ArgumentException` on a blank password, otherwise delegates to
the bcrypt library with the fixed work factor; the salt drawn by the
library for this call is an explicit argument of the model. -/
def HashPassword (digestFn : DigestFn) (salt : Nat) (password : String) :
    Except String BcryptHash :=
  if isNullOrWhiteSpace password then
    .error ("Password cannot be null or empty.")
  else
    .ok (bcryptHashPassword digestFn password WorkFactor salt)

/-- Method `PasswordService.VerifyPassword` (src/unnamed/part_020 lines 20–40):
returns `false` on a blank password or blank hash, and converts any
exception of the bcrypt library into `false` (the `try`/`catch`).  The
Lean function is total: "never throws" is the totality of this model. -/
def VerifyPassword (digestFn : DigestFn) (password : String)
    (hashedPassword : HashInput) : Bool :=
  if isNullOrWhiteSpace password then
    false
  else if hashedPassword.isBlank then
    false
  else
    match bcryptVerify digestFn password hashedPassword with
    | .ok b => b
    | .error _ => false

/-! ## Domain entities (src/backend/src/TaskManagement.Domain/Entities,
`TaskStatus` enum reconstructed from its use sites: the seeded data and
the request validator admit exactly `ToDo`, `InProgress`, `Completed`). -/

/-- Enum `TaskManagement.Domain.Enums.TaskStatus`. -/
inductive TaskStatus where
  | ToDo
  | InProgress
  | Completed
deriving DecidableEq, Repr

/-- Model of `Enum.IsDefined(typeof(TaskStatus), status)`: every value
of the Lean inductive corresponds to a defined member of the C# enum
(the C# `int`-backed out-of-range values are not representable in the
embedding, so the check is constantly true here). -/
def TaskStatus.isDefined (_ : TaskStatus) : Bool := true

/-- Entity `TaskManagement.Domain.Entities.Task` (Task.cs).  The `User`
navigation property is omitted (it is an ORM join artefact, not data of
the row). -/
structure Task where
  Id : Int
  Title : String
  Description : Option String
  Status : TaskStatus
  UserId : Int
  CreatedAt : Int
  UpdatedAt : Option Int
deriving DecidableEq, Repr

/-- Entity `TaskManagement.Domain.Entities.User`, fields as used by the core
(`Id`, `Username`, `PasswordHash`, `CreatedAt`). -/
structure User where
  Id : Int
  Username : String
  PasswordHash : String
  CreatedAt : Int
deriving DecidableEq, Repr

/-! ## Result models (src/unnamed/part_019 `AuthResult`,
src/backend/src/TaskManagement.Application/Models/TaskResult.cs). -/

/-- Record `TaskManagement.Application.Models.AuthResult`. -/
structure AuthResult where
  Success : Bool
  Token : Option String
  UserRecord : Option User
  ErrorMessage : Option String
deriving DecidableEq, Repr

/-- Factory `AuthResult.Successful(token, user)`. -/
def AuthResult.Successful (token : String) (user : User) : AuthResult :=
  { Success := true, Token := some token, UserRecord := some user,
    ErrorMessage := none }

/-- Factory `AuthResult.Failed(errorMessage)`. -/
def AuthResult.Failed (errorMessage : String) : AuthResult :=
  { Success := false, Token := none, UserRecord := none,
    ErrorMessage := some errorMessage }

/-- Record `TaskManagement.Application.Models.TaskResult`. -/
structure TaskResult where
  Success : Bool
  Task : Option TaskMgmt.Task
  Tasks : Option (List TaskMgmt.Task)
  ErrorMessage : Option String
deriving DecidableEq, Repr

/-- Factory `TaskResult.Successful(Task task)`. -/
def TaskResult.Successful (task : TaskMgmt.Task) : TaskResult :=
  { Success := true, Task := some task, Tasks := none, ErrorMessage := none }

/-- Factory `TaskResult.Successful(IEnumerable<Task> tasks)` (the second C#
overload). -/
def TaskResult.SuccessfulList (tasks : List TaskMgmt.Task) : TaskResult :=
  { Success := true, Task := none, Tasks := some tasks,
    ErrorMessage := none }

/-- Factory `TaskResult.Failed(errorMessage)`. -/
def TaskResult.Failed (errorMessage : String) : TaskResult :=
  { Success := false, Task := none, Tasks := none,
    ErrorMessage := some errorMessage }

/-! ## User store and `AuthService`
(src/backend/src/TaskManagement.Infrastructure/Repositories/UserRepository.cs,
src/backend/src/TaskManagement.Application/Services/AuthService.cs).

The user store (`DbSet<User>`) is a `List User`; the password service
and token service collaborators of `AuthService` are abstract function
parameters, so the login theorems hold for every implementation. -/

/-- Method `UserRepository.GetByUsernameAsync`: `null` on a blank username,
otherwise `FirstOrDefaultAsync(u => u.Username == username)`. -/
def GetByUsernameAsync (store : List User) (username : String) :
    Option User :=
  if isNullOrWhiteSpace username then none
  else store.find? fun u => u.Username == username

/-- Method `AuthService.LoginAsync` (AuthService.cs lines 23–48), with the
user store explicit and the collaborators (`IPasswordService.VerifyPassword`,
`IJwtTokenService.GenerateToken`) as function parameters. -/
def LoginAsync (store : List User) (verify : String → String → Bool)
    (genToken : User → String) (username password : String) : AuthResult :=
  if isNullOrWhiteSpace username then
    AuthResult.Failed ("Username is required.")
  else if isNullOrWhiteSpace password then
    AuthResult.Failed ("Password is required.")
  else
    match GetByUsernameAsync store username with
    | none => AuthResult.Failed ("Invalid username or password.")
    | some user =>
      if ¬ verify password user.PasswordHash then
        AuthResult.Failed ("Invalid username or password.")
      else
        AuthResult.Successful (genToken user) user

/-! ## Task store and `TaskRepository`
(src/backend/src/TaskManagement.Infrastructure/Repositories — the
`TaskRepository` class in DbSeeder.cs's file group, lines 84–152).

The task store (`DbSet<Task>`) is a `List Task`.  `SaveChangesAsync`
writes a tracked entity to the row sharing its primary key, so
`UpdateAsync` is a map over the list replacing the record with the
matching `Id`, and `Remove` erases the retrieved entity. -/

/-- Method `TaskRepository.GetByIdAsync(id, userId)`:
`FirstOrDefaultAsync(t => t.Id == id && t.UserId == userId)` — the
ownership predicate is applied atomically with the key lookup. -/
def TaskRepository.GetByIdAsync (store : List Task) (id userId : Int) :
    Option Task :=
  store.find? fun t => t.Id == id && t.UserId == userId

/-- Method `TaskRepository.GetAllByUserIdAsync(userId)` (ordering by
`CreatedAt` descending is kept: a stable sort of the filtered list). -/
def TaskRepository.GetAllByUserIdAsync (store : List Task) (userId : Int) :
    List Task :=
  ((store.filter fun t => t.UserId == userId).mergeSort
    fun a b => decide (b.CreatedAt ≤ a.CreatedAt))

/-- Method `TaskRepository.GetByStatusAsync(status, userId)`. -/
def TaskRepository.GetByStatusAsync (store : List Task)
    (status : TaskStatus) (userId : Int) : List Task :=
  ((store.filter fun t => t.Status == status && t.UserId == userId).mergeSort
    fun a b => decide (b.CreatedAt ≤ a.CreatedAt))

/-- Method `TaskRepository.CreateAsync(task)`: stamps `CreatedAt`/`UpdatedAt`
with the current time and appends the row; returns the stored entity. -/
def TaskRepository.CreateAsync (store : List Task) (task : Task)
    (now : Int) : Task × List Task :=
  let stamped := { task with CreatedAt := now, UpdatedAt := some now }
  (stamped, store ++ [stamped])

/-- Method `TaskRepository.UpdateAsync(task)`: stamps `UpdatedAt` and writes
the entity over the row with the same primary key. -/
def TaskRepository.UpdateAsync (store : List Task) (task : Task)
    (now : Int) : Task × List Task :=
  let stamped := { task with UpdatedAt := some now }
  (stamped, store.map fun t => if t.Id == stamped.Id then stamped else t)

/-- Method `TaskRepository.DeleteAsync(id, userId)` (lines 126–137): retrieves
via the ownership-scoped `GetByIdAsync`; if absent returns `false` with
the store untouched, otherwise removes that entity. -/
def TaskRepository.DeleteAsync (store : List Task) (id userId : Int) :
    Bool × List Task :=
  match TaskRepository.GetByIdAsync store id userId with
  | none => (false, store)
  | some task => (true, store.erase task)

/-! ## `TaskService` (src/unnamed/part_020, lines 48–277)

The service is written against `ITaskRepository`; the embedding keeps
that seam: a repository is a record of state-transformers over an
abstract store state `σ`, and the list-backed repository above is its
concrete instance.  Quantifying theorems over the repository record is
the embedding of "the repository is not invoked": the result of a
rejected call is the same for every repository and returns the store
state unchanged. -/

/-- Interface `ITaskRepository`
(src/backend/src/TaskManagement.Application/Interfaces/ITaskRepository.cs)
as a record of state-transformers over a store state `σ`. -/
structure ITaskRepository (σ : Type) where
  GetAllByUserIdAsync : σ → Int → List Task × σ
  GetByIdAsync : σ → Int → Int → Option Task × σ
  CreateAsync : σ → Task → Task × σ
  UpdateAsync : σ → Task → Task × σ
  DeleteAsync : σ → Int → Int → Bool × σ
  GetByStatusAsync : σ → TaskStatus → Int → List Task × σ

/-- The list-backed repository of the Infrastructure layer, at a fixed
current time `now` (EF reads the clock inside `CreateAsync` and
`UpdateAsync`). -/
def listTaskRepository (now : Int) : ITaskRepository (List Task) where
  GetAllByUserIdAsync s userId := (TaskRepository.GetAllByUserIdAsync s userId, s)
  GetByIdAsync s id userId := (TaskRepository.GetByIdAsync s id userId, s)
  CreateAsync s task := TaskRepository.CreateAsync s task now
  UpdateAsync s task := TaskRepository.UpdateAsync s task now
  DeleteAsync s id userId := TaskRepository.DeleteAsync s id userId
  GetByStatusAsync s status userId := (TaskRepository.GetByStatusAsync s status userId, s)

/-- Model of .NET `String.Trim()`: strips leading and trailing
whitespace (structural, so that concrete instances evaluate). -/
def trimString (s : String) : String :=
  ⟨((s.data.dropWhile Char.isWhitespace).reverse.dropWhile
      Char.isWhitespace).reverse⟩

/-- Model of the C# null-propagating check
`description?.Length > 1000` (false when `description` is null). -/
def descriptionTooLong (description : Option String) : Bool :=
  match description with
  | some d => decide (d.length > 1000)
  | none => false

/-- Method `TaskService.GetAllTasksAsync` (lines 57–73).  The `try`/`catch`
around the repository call is not represented: the modelled repository
is total, so the `catch` arm is unreachable in the embedding. -/
def TaskService.GetAllTasksAsync {σ : Type} (repo : ITaskRepository σ)
    (s : σ) (userId : Int) : TaskResult × σ :=
  if userId ≤ 0 then
    (TaskResult.Failed ("Invalid user ID"), s)
  else
    let r := repo.GetAllByUserIdAsync s userId
    (TaskResult.SuccessfulList r.1, r.2)

/-- Method `TaskService.GetTaskByIdAsync` (lines 75–101). -/
def TaskService.GetTaskByIdAsync {σ : Type} (repo : ITaskRepository σ)
    (s : σ) (taskId userId : Int) : TaskResult × σ :=
  if taskId ≤ 0 then
    (TaskResult.Failed ("Invalid task ID"), s)
  else if userId ≤ 0 then
    (TaskResult.Failed ("Invalid user ID"), s)
  else
    let r := repo.GetByIdAsync s taskId userId
    match r.1 with
    | none => (TaskResult.Failed ("Task not found or access denied"), r.2)
    | some task => (TaskResult.Successful task, r.2)

/-- Method `TaskService.CreateTaskAsync` (lines 103–142). -/
def TaskService.CreateTaskAsync {σ : Type} (repo : ITaskRepository σ)
    (s : σ) (title : String) (description : Option String)
    (userId : Int) : TaskResult × σ :=
  if isNullOrWhiteSpace title then
    (TaskResult.Failed ("Task title is required"), s)
  else if title.length > 200 then
    (TaskResult.Failed ("Task title cannot exceed 200 characters"), s)
  else if descriptionTooLong description then
    (TaskResult.Failed ("Task description cannot exceed 1000 characters"), s)
  else if userId ≤ 0 then
    (TaskResult.Failed ("Invalid user ID"), s)
  else
    let task : Task :=
      { Id := 0, Title := trimString title,
        Description := description.map trimString,
        Status := TaskStatus.ToDo, UserId := userId, CreatedAt := 0,
        UpdatedAt := none }
    let r := repo.CreateAsync s task
    (TaskResult.Successful r.1, r.2)

/-- Method `TaskService.UpdateTaskAsync` (lines 144–189): validates inputs,
retrieves the task through the ownership-scoped lookup, mutates title
and description only, and writes it back. -/
def TaskService.UpdateTaskAsync {σ : Type} (repo : ITaskRepository σ)
    (s : σ) (taskId : Int) (title : String) (description : Option String)
    (userId : Int) : TaskResult × σ :=
  if taskId ≤ 0 then
    (TaskResult.Failed ("Invalid task ID"), s)
  else if isNullOrWhiteSpace title then
    (TaskResult.Failed ("Task title is required"), s)
  else if title.length > 200 then
    (TaskResult.Failed ("Task title cannot exceed 200 characters"), s)
  else if descriptionTooLong description then
    (TaskResult.Failed ("Task description cannot exceed 1000 characters"), s)
  else if userId ≤ 0 then
    (TaskResult.Failed ("Invalid user ID"), s)
  else
    let r := repo.GetByIdAsync s taskId userId
    match r.1 with
    | none => (TaskResult.Failed ("Task not found or access denied"), r.2)
    | some existingTask =>
      let changed := { existingTask with
        Title := trimString title,
        Description := description.map trimString }
      let u := repo.UpdateAsync r.2 changed
      (TaskResult.Successful u.1, u.2)

/-- Method `TaskService.UpdateTaskStatusAsync` (lines 191–225). -/
def TaskService.UpdateTaskStatusAsync {σ : Type} (repo : ITaskRepository σ)
    (s : σ) (taskId : Int) (status : TaskStatus) (userId : Int) :
    TaskResult × σ :=
  if taskId ≤ 0 then
    (TaskResult.Failed ("Invalid task ID"), s)
  else if userId ≤ 0 then
    (TaskResult.Failed ("Invalid user ID"), s)
  else if ¬ status.isDefined then
    (TaskResult.Failed ("Invalid task status"), s)
  else
    let r := repo.GetByIdAsync s taskId userId
    match r.1 with
    | none => (TaskResult.Failed ("Task not found or access denied"), r.2)
    | some existingTask =>
      let changed := { existingTask with Status := status }
      let u := repo.UpdateAsync r.2 changed
      (TaskResult.Successful u.1, u.2)

/-- Method `TaskService.DeleteTaskAsync` (lines 227–253). -/
def TaskService.DeleteTaskAsync {σ : Type} (repo : ITaskRepository σ)
    (s : σ) (taskId userId : Int) : TaskResult × σ :=
  if taskId ≤ 0 then
    (TaskResult.Failed ("Invalid task ID"), s)
  else if userId ≤ 0 then
    (TaskResult.Failed ("Invalid user ID"), s)
  else
    let r := repo.DeleteAsync s taskId userId
    match r.1 with
    | false => (TaskResult.Failed ("Task not found or access denied"), r.2)
    | true =>
      (TaskResult.Successful
        { Id := taskId, Title := "", Description := none,
          Status := TaskStatus.ToDo, UserId := 0, CreatedAt := 0,
          UpdatedAt := none }, r.2)

/-- Method `TaskService.GetTasksByStatusAsync` (lines 255–276). -/
def TaskService.GetTasksByStatusAsync {σ : Type} (repo : ITaskRepository σ)
    (s : σ) (status : TaskStatus) (userId : Int) : TaskResult × σ :=
  if userId ≤ 0 then
    (TaskResult.Failed ("Invalid user ID"), s)
  else if ¬ status.isDefined then
    (TaskResult.Failed ("Invalid task status"), s)
  else
    let r := repo.GetByStatusAsync s status userId
    (TaskResult.SuccessfulList r.1, r.2)

/-! ## Token service (src/unnamed/part_021, `JwtTokenService`)

The `System.IdentityModel.Tokens.Jwt` library is external to the
repository; the parts the service exercises are modelled: a token is a
claims payload plus a signature over it, `CreateToken` signs the
payload with the symmetric key, and `ValidateToken` recomputes the
signature and checks issuer, audience and lifetime, throwing (here:
returning `false`) on any mismatch, with `ClockSkew = TimeSpan.Zero`.
The HMAC-SHA256 computation is kept abstract as a parameter `mac`, so
every theorem holds for every deterministic MAC function.  Claim values
are decimal strings modelled as their character-code lists
(`intToDigits` prints `user.Id.ToString()`, `parseIntDigits` models
`int.TryParse`). -/

/-- Decimal digits of a natural number, most significant first
(the character codes of `n.ToString()`, with digit `d` standing for the
character code of `d`). -/
def natToDigits (n : Nat) : List Nat :=
  if n < 10 then [n] else natToDigits (n / 10) ++ [n % 10]
termination_by n
decreasing_by
  omega

/-- Character codes of `i.ToString()` for a C# `int`: an optional
leading minus sign (code 45) followed by the decimal digits. -/
def intToDigits (i : Int) : List Nat :=
  if i < 0 then 45 :: natToDigits i.natAbs else natToDigits i.toNat

/-- Value of a most-significant-first digit list. -/
def digitsVal (ds : List Nat) : Nat :=
  ds.foldl (fun acc d => acc * 10 + d) 0

/-- Model of `uint`-style decimal parsing: succeeds exactly on a
non-empty string of decimal digits. -/
def parseNatDigits (ds : List Nat) : Option Nat :=
  if ds.isEmpty then none
  else if ds.all (fun d => d < 10) then some (digitsVal ds)
  else none

/-- Model of `int.TryParse` on a character-code list: an optional
leading minus sign, then decimal digits. -/
def parseIntDigits (ds : List Nat) : Option Int :=
  match ds with
  | [] => none
  | d :: rest =>
    if d = 45 then (parseNatDigits rest).map (fun n => -(Int.ofNat n))
    else (parseNatDigits (d :: rest)).map (fun n => Int.ofNat n)

/-- Settings class `JwtSettings` (TaskManagement.Application.Models; the class body is
not under src/ — its fields are reconstructed from every use site:
`SecretKey`, `Issuer`, `Audience`, `ExpirationMinutes`). -/
structure JwtSettings where
  SecretKey : String
  Issuer : String
  Audience : String
  ExpirationMinutes : Int
deriving DecidableEq, Repr

/-- The claims payload of a JWT produced or consumed by the service:
subject/name-identifier, display name, the custom `userId` claim, the
expiry instant and the issuer/audience pair. -/
structure TokenPayload where
  nameId : List Nat
  name : String
  userId : List Nat
  expires : Int
  issuer : String
  audience : String
deriving DecidableEq, Repr

/-- A serialized JWT: payload segments plus the signature segment
(a byte list). -/
structure SignedToken where
  payload : TokenPayload
  signature : List Nat
deriving DecidableEq, Repr

/-- The HMAC-SHA256 computation of the external library, abstract:
secret → payload → signature bytes. -/
abbrev MacFn := String → TokenPayload → List Nat

/-- Method `JwtTokenService.GenerateToken` (part_021 lines 22–46): builds the
claims (`NameIdentifier` and `userId` both carry `user.Id.ToString()`),
sets `Expires = now + ExpirationMinutes`, stamps issuer and audience
from the settings and signs with the symmetric key. -/
def GenerateToken (mac : MacFn) (settings : JwtSettings) (user : User)
    (now : Int) : SignedToken :=
  let payload : TokenPayload :=
    { nameId := intToDigits user.Id
      name := user.Username
      userId := intToDigits user.Id
      expires := now + settings.ExpirationMinutes
      issuer := settings.Issuer
      audience := settings.Audience }
  { payload := payload, signature := mac settings.SecretKey payload }

/-- The `TokenValidationParameters` check shared verbatim by
`ValidateToken` and `GetUserIdFromToken` (part_021 lines 58–68 and
89–99): signature under the symmetric key, issuer, audience, and
lifetime with `ClockSkew = TimeSpan.Zero` (a token is rejected exactly
when its expiry lies strictly before the current instant). -/
def tokenParamsValid (mac : MacFn) (settings : JwtSettings)
    (t : SignedToken) (now : Int) : Bool :=
  (t.signature == mac settings.SecretKey t.payload)
    && (t.payload.issuer == settings.Issuer)
    && (t.payload.audience == settings.Audience)
    && !(decide (t.payload.expires < now))

/-- Method `JwtTokenService.ValidateToken` (part_021 lines 48–77): `false` on
a blank or unparseable token string (modelled `none`), otherwise the
full parameter check; every library exception is caught and becomes
`false`. -/
def ValidateToken (mac : MacFn) (settings : JwtSettings)
    (token : Option SignedToken) (now : Int) : Bool :=
  match token with
  | none => false
  | some t => tokenParamsValid mac settings t now

/-- Method `JwtTokenService.GetUserIdFromToken` (part_021 lines 79–115): `null`
on a blank token; otherwise runs the same full validation as
`ValidateToken` and only then parses the `userId` claim with
`int.TryParse`, returning `null` when validation or parsing fails. -/
def GetUserIdFromToken (mac : MacFn) (settings : JwtSettings)
    (token : Option SignedToken) (now : Int) : Option Int :=
  match token with
  | none => none
  | some t =>
    if tokenParamsValid mac settings t now then
      parseIntDigits t.payload.userId
    else
      none

/-! ## Start-up configuration validation

The `JwtSettings` class body carrying the data-annotation attributes is
not under src/ (only its registration is:
`ConfigurationExtensions.AddApplicationConfiguration` wires
`ValidateDataAnnotations().ValidateOnStart()` for `JwtSettings`, and
Program.cs lines 22–38 throw at boot when the secret is absent).  The
validation itself is therefore modelled from the spec. -/

/-- Modelled from the spec: the required minimum length of the signing
secret ("minimum length enforced at startup"); the repository's test
fixtures name a 32-character minimum. -/
def minSecretKeyLength : Nat := 32

/-- Modelled from the spec: the data-annotation validation of
`JwtSettings` run by `ValidateOnStart` — the signing secret is required
and must meet the minimum length; issuer, audience and lifetime are
bound eagerly in the same pass. -/
def validateJwtSettings (settings : JwtSettings) : Option String :=
  if settings.SecretKey.length = 0 then
    some ("JWT SecretKey not configured")
  else if settings.SecretKey.length < minSecretKeyLength then
    some ("JWT SecretKey does not meet the minimum length")
  else
    none

/-- Outcome of process boot: either a fatal configuration error or a
running application holding the eagerly validated settings. -/
inductive BootOutcome where
  | configError (message : String)
  | running (settings : JwtSettings)
deriving DecidableEq, Repr

/-- Whether a boot outcome is the fatal configuration-error outcome. -/
def BootOutcome.isConfigError : BootOutcome → Bool
  | .configError _ => true
  | .running _ => false

/-- Modelled from the spec: process start-up
(`AddApplicationConfiguration` + `ValidateOnStart`, Program.cs) — the
configuration is validated before the request pipeline is built, and a
validation failure aborts boot with a configuration error, so no
request is ever served with an unvalidated secret. -/
def startApplication (settings : JwtSettings) : BootOutcome :=
  match validateJwtSettings settings with
  | some message => BootOutcome.configError message
  | none => BootOutcome.running settings

/-! ## Auxiliary lemmas -/

theorem natToDigits_ne_nil (n : Nat) : natToDigits n ≠ [] := by
  rw [natToDigits]
  split <;> simp

theorem natToDigits_all_lt (n : Nat) : ∀ d ∈ natToDigits n, d < 10 := by
  induction n using Nat.strong_induction_on with
  | _ n ih =>
    rw [natToDigits]
    split
    · intro d hd
      simp only [List.mem_singleton] at hd
      omega
    · intro d hd
      rw [List.mem_append, List.mem_singleton] at hd
      rcases hd with h | h
      · exact ih (n / 10) (by omega) d h
      · omega

theorem digitsVal_append_digit (l : List Nat) (d : Nat) :
    digitsVal (l ++ [d]) = digitsVal l * 10 + d := by
  simp [digitsVal, List.foldl_append]

theorem digitsVal_natToDigits (n : Nat) : digitsVal (natToDigits n) = n := by
  induction n using Nat.strong_induction_on with
  | _ n ih =>
    rw [natToDigits]
    split
    · simp [digitsVal]
    · rw [digitsVal_append_digit, ih (n / 10) (by omega)]
      omega

theorem parseNatDigits_natToDigits (n : Nat) :
    parseNatDigits (natToDigits n) = some n := by
  have h1 : (natToDigits n).isEmpty = false := by
    cases h : natToDigits n with
    | nil => exact absurd h (natToDigits_ne_nil n)
    | cons d rest => rfl
  have h2 : (natToDigits n).all (fun d => decide (d < 10)) = true := by
    rw [List.all_eq_true]
    intro d hd
    simpa using natToDigits_all_lt n d hd
  simp [parseNatDigits, h1, h2, digitsVal_natToDigits]

theorem parseIntDigits_intToDigits (i : Int) :
    parseIntDigits (intToDigits i) = some i := by
  by_cases hneg : i < 0
  · rw [intToDigits, if_pos hneg]
    rw [parseIntDigits]
    rw [if_pos rfl, parseNatDigits_natToDigits]
    rw [Option.map_some']
    congr 1
    simp only [Int.ofNat_eq_coe]
    omega
  · have hne := natToDigits_ne_nil i.toNat
    cases h : natToDigits i.toNat with
    | nil => exact absurd h hne
    | cons d rest =>
      have hd : d < 10 := by
        refine natToDigits_all_lt i.toNat d ?_
        rw [h]
        exact List.mem_cons_self d rest
      rw [intToDigits, if_neg hneg, h]
      rw [parseIntDigits]
      rw [if_neg (by omega), ← h, parseNatDigits_natToDigits]
      rw [Option.map_some']
      congr 1
      simp only [Int.ofNat_eq_coe]
      omega

/-- Frame property of the store write in `TaskRepository.UpdateAsync`:
every record of the written store is either the freshly stamped entity
or an untouched record of the original store. -/
theorem TaskRepository.mem_updateAsync (store : List Task) (task : Task)
    (now : Int) :
    ∀ t ∈ (TaskRepository.UpdateAsync store task now).2,
      t = { task with UpdatedAt := some now } ∨ t ∈ store := by
  intro t ht
  simp only [TaskRepository.UpdateAsync, List.mem_map] at ht
  obtain ⟨x, hx, hxt⟩ := ht
  by_cases hid : (x.Id == task.Id) = true
  · rw [if_pos hid] at hxt
    exact Or.inl hxt.symm
  · rw [if_neg hid] at hxt
    exact Or.inr (hxt ▸ hx)

/-! ## Claim theorems -/

/-- C6: for every plaintext (including blank) and every hash argument
that is not a well-formed bcrypt hash value — or is blank, or fails
verification against the plaintext — `PasswordService.VerifyPassword`
returns `false`; the model is a total Bool-valued function, so no
exception ever reaches the caller, and every failure is the same
`false` value. -/
theorem C6_verify_fail_closed (digestFn : DigestFn) (password : String)
    (h : HashInput)
    (hfail : (∃ raw, h = HashInput.malformed raw)
      ∨ isNullOrWhiteSpace password = true
      ∨ h.isBlank = true
      ∨ bcryptVerify digestFn password h = .ok false) :
    VerifyPassword digestFn password h = false := by
  by_cases hp : isNullOrWhiteSpace password = true
  · simp [VerifyPassword, hp]
  · by_cases hh : h.isBlank = true
    · simp [VerifyPassword, hp, hh]
    · rcases hfail with ⟨raw, rfl⟩ | hb | hb | hb
      · simp [VerifyPassword, hp, hh, bcryptVerify]
      · exact absurd hb hp
      · exact absurd hb hh
      · simp [VerifyPassword, hp, hh, hb]

theorem C6_verify_fail_closed_witness :
    VerifyPassword (fun _ _ _ => 0) ("pw")
      (HashInput.malformed ("not-a-bcrypt-hash")) = false :=
  C6_verify_fail_closed (fun _ _ _ => 0) ("pw")
    (HashInput.malformed ("not-a-bcrypt-hash"))
    (Or.inl ⟨("not-a-bcrypt-hash"), rfl⟩)

/-- C7: for every non-blank password, two `HashPassword` calls that
draw distinct fresh salts produce distinct hash values, and every hash
value produced from the password verifies against it through
`VerifyPassword`. -/
theorem C7_hash_nondeterminism_roundtrip (digestFn : DigestFn)
    (password : String) (s₁ s₂ : Nat)
    (hp : isNullOrWhiteSpace password = false) (hs : s₁ ≠ s₂) :
    HashPassword digestFn s₁ password ≠ HashPassword digestFn s₂ password
    ∧ (∀ s h, HashPassword digestFn s password = .ok h →
        VerifyPassword digestFn password (HashInput.wellFormed h) = true) := by
  constructor
  · simp only [HashPassword, hp, Bool.false_eq_true, if_false,
      bcryptHashPassword, ne_eq, Except.ok.injEq, BcryptHash.mk.injEq]
    intro hEq
    exact hs hEq.2.1
  · intro s h hok
    simp only [HashPassword, hp, Bool.false_eq_true, if_false,
      Except.ok.injEq] at hok
    subst hok
    simp [VerifyPassword, hp, HashInput.isBlank, bcryptVerify,
      bcryptHashPassword]

theorem C7_hash_nondeterminism_roundtrip_witness :
    HashPassword (fun _ _ _ => 0) 0 ("pw")
      ≠ HashPassword (fun _ _ _ => 0) 1 ("pw")
    ∧ VerifyPassword (fun _ _ _ => 0) ("pw")
        (HashInput.wellFormed (bcryptHashPassword (fun _ _ _ => 0) ("pw") WorkFactor 0))
        = true :=
  ⟨(C7_hash_nondeterminism_roundtrip (fun _ _ _ => 0) ("pw") 0 1
      (by decide) (by decide)).1,
   (C7_hash_nondeterminism_roundtrip (fun _ _ _ => 0) ("pw") 0 1
      (by decide) (by decide)).2 0
      (bcryptHashPassword (fun _ _ _ => 0) ("pw") WorkFactor 0) (by rfl)⟩

/-- C2: for every user store and non-blank username/password, a login
against an absent username and a login whose password verification
fails return the identical `AuthResult` value — the same generic
`AuthResult.Failed "Invalid username or password."` with the same
success flag and error message; no distinct user-not-found outcome
exists on any path. -/
theorem C2_login_generic_failure (store : List User)
    (verify : String → String → Bool) (genToken : User → String)
    (username password : String)
    (hu : isNullOrWhiteSpace username = false)
    (hp : isNullOrWhiteSpace password = false) :
    (GetByUsernameAsync store username = none →
      LoginAsync store verify genToken username password
        = AuthResult.Failed ("Invalid username or password."))
    ∧ (∀ user, GetByUsernameAsync store username = some user →
        verify password user.PasswordHash = false →
        LoginAsync store verify genToken username password
          = AuthResult.Failed ("Invalid username or password.")) := by
  constructor
  · intro hnone
    simp [LoginAsync, hu, hp, hnone]
  · intro user hsome hv
    simp [LoginAsync, hu, hp, hsome, hv]

theorem C2_login_generic_failure_witness :
    LoginAsync [] (fun _ _ => false) (fun _ => ("tok")) ("ghost") ("pw")
      = AuthResult.Failed ("Invalid username or password.")
    ∧ LoginAsync [⟨1, ("admin"), ("hash"), 0⟩] (fun _ _ => false)
        (fun _ => ("tok")) ("admin") ("pw")
      = AuthResult.Failed ("Invalid username or password.") :=
  ⟨(C2_login_generic_failure [] (fun _ _ => false) (fun _ => ("tok"))
      ("ghost") ("pw") (by decide) (by decide)).1 (by decide),
   (C2_login_generic_failure [⟨1, ("admin"), ("hash"), 0⟩]
      (fun _ _ => false) (fun _ => ("tok")) ("admin") ("pw")
      (by decide) (by decide)).2 ⟨1, ("admin"), ("hash"), 0⟩
      (by decide) rfl⟩

/-- C1: with primary-key-unique ids, a task owned by user `A` is
invisible to a distinct user `B`: `GetByIdAsync(task.Id, B)` yields the
very same `none` that a genuinely absent id yields, `DeleteAsync(task.Id, B)`
fails and returns the store unchanged (the task intact), and
`GetByIdAsync(task.Id, A)` still yields the task afterwards. -/
theorem C1_ownership_isolation (store : List Task) (t : Task) (A B : Int)
    (hnd : (store.map Task.Id).Nodup) (hmem : t ∈ store)
    (howner : t.UserId = A) (hAB : A ≠ B) :
    TaskRepository.GetByIdAsync store t.Id B = none
    ∧ (∀ missingId : Int, (∀ u ∈ store, u.Id ≠ missingId) →
        TaskRepository.GetByIdAsync store missingId B = none)
    ∧ TaskRepository.DeleteAsync store t.Id B = (false, store)
    ∧ TaskRepository.GetByIdAsync store t.Id A = some t := by
  have inj := List.inj_on_of_nodup_map hnd
  have h1 : TaskRepository.GetByIdAsync store t.Id B = none := by
    rw [TaskRepository.GetByIdAsync, List.find?_eq_none]
    intro x hx
    simp only [Bool.and_eq_true, beq_iff_eq, not_and]
    intro hid
    have hxt : x = t := inj hx hmem hid
    rw [hxt, howner]
    exact hAB
  refine ⟨h1, ?_, ?_, ?_⟩
  · intro missingId hmissing
    rw [TaskRepository.GetByIdAsync, List.find?_eq_none]
    intro x hx
    simp only [Bool.and_eq_true, beq_iff_eq, not_and]
    intro hid
    exact absurd hid (hmissing x hx)
  · rw [TaskRepository.DeleteAsync, h1]
  · rw [TaskRepository.GetByIdAsync]
    cases hf : store.find? (fun x => x.Id == t.Id && x.UserId == A) with
    | none =>
      exfalso
      rw [List.find?_eq_none] at hf
      exact hf t hmem (by simp [howner])
    | some x =>
      have hpx := List.find?_some hf
      have hxmem := List.mem_of_find?_eq_some hf
      simp only [Bool.and_eq_true, beq_iff_eq] at hpx
      rw [inj hxmem hmem hpx.1]

theorem C1_ownership_isolation_witness :
    TaskRepository.GetByIdAsync
        [⟨1, ("t1"), none, TaskStatus.ToDo, 1, 0, none⟩] 1 2 = none
    ∧ TaskRepository.GetByIdAsync
        [⟨1, ("t1"), none, TaskStatus.ToDo, 1, 0, none⟩] 99 2 = none
    ∧ TaskRepository.DeleteAsync
        [⟨1, ("t1"), none, TaskStatus.ToDo, 1, 0, none⟩] 1 2
      = (false, [⟨1, ("t1"), none, TaskStatus.ToDo, 1, 0, none⟩])
    ∧ TaskRepository.GetByIdAsync
        [⟨1, ("t1"), none, TaskStatus.ToDo, 1, 0, none⟩] 1 1
      = some ⟨1, ("t1"), none, TaskStatus.ToDo, 1, 0, none⟩ := by
  have h := C1_ownership_isolation
    [⟨1, ("t1"), none, TaskStatus.ToDo, 1, 0, none⟩]
    ⟨1, ("t1"), none, TaskStatus.ToDo, 1, 0, none⟩ 1 2
    (by decide) (List.mem_singleton_self _) rfl (by decide)
  exact ⟨h.1, h.2.1 99 (by decide), h.2.2.1, h.2.2.2⟩

/-- C3: for every valid configuration (non-negative lifetime) and every
user, decoding the subject of a freshly issued token at issuance time
returns the user's id; and `GetUserIdFromToken` only ever returns a
non-null id on tokens that pass exactly the validation performed by
`ValidateToken`. -/
theorem C3_token_roundtrip (mac : MacFn) (settings : JwtSettings)
    (user : User) (now : Int) (hL : 0 ≤ settings.ExpirationMinutes) :
    GetUserIdFromToken mac settings
        (some (GenerateToken mac settings user now)) now = some user.Id
    ∧ (∀ token, GetUserIdFromToken mac settings token now ≠ none →
        ValidateToken mac settings token now = true) := by
  constructor
  · have hvalid : tokenParamsValid mac settings
        (GenerateToken mac settings user now) now = true := by
      simp [tokenParamsValid, GenerateToken]
      omega
    rw [GetUserIdFromToken]
    rw [if_pos hvalid]
    simp [GenerateToken, parseIntDigits_intToDigits]
  · intro token htok
    cases token with
    | none => simp [GetUserIdFromToken] at htok
    | some t =>
      by_cases hv : tokenParamsValid mac settings t now = true
      · simp [ValidateToken, hv]
      · exfalso
        apply htok
        simp [GetUserIdFromToken, hv]

theorem C3_token_roundtrip_witness :
    GetUserIdFromToken (fun _ _ => [0]) ⟨("sec"), ("iss"), ("aud"), 60⟩
        (some (GenerateToken (fun _ _ => [0]) ⟨("sec"), ("iss"), ("aud"), 60⟩
          ⟨7, ("alice"), ("h"), 0⟩ 0)) 0
      = some 7 :=
  (C3_token_roundtrip (fun _ _ => [0]) ⟨("sec"), ("iss"), ("aud"), 60⟩
    ⟨7, ("alice"), ("h"), 0⟩ 0 (by decide)).1

/-- C4: a token issued at `t0` with lifetime `ExpirationMinutes`,
validated at any instant strictly past `t0 + ExpirationMinutes`, is
rejected by `ValidateToken` and yields `none` from
`GetUserIdFromToken` — zero clock-skew tolerance, no grace window. -/
theorem C4_token_expiry (mac : MacFn) (settings : JwtSettings) (user : User)
    (t0 now : Int) (hexp : t0 + settings.ExpirationMinutes < now) :
    ValidateToken mac settings
        (some (GenerateToken mac settings user t0)) now = false
    ∧ GetUserIdFromToken mac settings
        (some (GenerateToken mac settings user t0)) now = none := by
  have hv : tokenParamsValid mac settings
      (GenerateToken mac settings user t0) now = false := by
    simp [tokenParamsValid, GenerateToken, hexp]
  constructor
  · simp [ValidateToken, hv]
  · simp [GetUserIdFromToken, hv]

theorem C4_token_expiry_witness :
    ValidateToken (fun _ _ => [0]) ⟨("sec"), ("iss"), ("aud"), 60⟩
        (some (GenerateToken (fun _ _ => [0]) ⟨("sec"), ("iss"), ("aud"), 60⟩
          ⟨7, ("alice"), ("h"), 0⟩ 0)) 61
      = false
    ∧ GetUserIdFromToken (fun _ _ => [0]) ⟨("sec"), ("iss"), ("aud"), 60⟩
        (some (GenerateToken (fun _ _ => [0]) ⟨("sec"), ("iss"), ("aud"), 60⟩
          ⟨7, ("alice"), ("h"), 0⟩ 0)) 61
      = none :=
  C4_token_expiry (fun _ _ => [0]) ⟨("sec"), ("iss"), ("aud"), 60⟩
    ⟨7, ("alice"), ("h"), 0⟩ 0 61 (by decide)

/-- C8: flipping any single byte of the signature segment of a token
accepted by `ValidateToken` makes `ValidateToken` reject it. -/
theorem C8_tampered_signature_rejected (mac : MacFn)
    (settings : JwtSettings) (t : SignedToken) (now : Int) (i b : Nat)
    (hvalid : ValidateToken mac settings (some t) now = true)
    (hi : i < t.signature.length)
    (hb : b ≠ t.signature.get ⟨i, hi⟩) :
    ValidateToken mac settings
      (some { t with signature := t.signature.set i b }) now = false := by
  simp only [ValidateToken, tokenParamsValid, Bool.and_eq_true,
    beq_iff_eq] at hvalid
  obtain ⟨⟨⟨hsig, hiss⟩, haud⟩, hexp⟩ := hvalid
  have hne : t.signature.set i b ≠ mac settings.SecretKey t.payload := by
    rw [← hsig]
    intro hEq
    have h2 := congrArg (fun l => l[i]?) hEq
    simp only at h2
    rw [List.getElem?_set_self hi, List.getElem?_eq_getElem hi] at h2
    apply hb
    rw [List.get_eq_getElem]
    exact Option.some_inj.mp h2
  have hbeq : (t.signature.set i b == mac settings.SecretKey t.payload)
      = false := by
    simpa using hne
  simp [ValidateToken, tokenParamsValid, hbeq]

theorem C8_tampered_signature_rejected_witness :
    ValidateToken (fun _ _ => [0, 1]) ⟨("sec"), ("iss"), ("aud"), 1⟩
        (some ⟨⟨[7], ("u"), [7], 5, ("iss"), ("aud")⟩, List.set [0, 1] 0 9⟩) 0
      = false :=
  C8_tampered_signature_rejected (fun _ _ => [0, 1])
    ⟨("sec"), ("iss"), ("aud"), 1⟩
    ⟨⟨[7], ("u"), [7], 5, ("iss"), ("aud")⟩, [0, 1]⟩ 0 0 9
    (by decide) (by decide) (by decide)

/-- C5: a signing secret that is absent (empty) or shorter than the
required minimum makes boot end in the fatal configuration error, and
any running application only ever holds a secret that passed the
eagerly-run minimum-length validation — the configuration is never
validated lazily at first use. -/
theorem C5_startup_secret_validation (settings : JwtSettings)
    (hshort : settings.SecretKey.length < minSecretKeyLength) :
    (startApplication settings).isConfigError = true
    ∧ (∀ s₀ validated, startApplication s₀ = BootOutcome.running validated →
        minSecretKeyLength ≤ validated.SecretKey.length) := by
  constructor
  · by_cases h0 : settings.SecretKey.length = 0
    · simp [startApplication, validateJwtSettings, h0,
        BootOutcome.isConfigError]
    · simp [startApplication, validateJwtSettings, h0, hshort,
        BootOutcome.isConfigError]
  · intro s₀ validated hrun
    cases hv : validateJwtSettings s₀ with
    | some msg =>
      simp only [startApplication, hv] at hrun
      exact BootOutcome.noConfusion hrun
    | none =>
      simp only [startApplication, hv] at hrun
      injection hrun with h
      subst h
      simp only [validateJwtSettings] at hv
      split_ifs at hv with h1 h2
      omega

theorem C5_startup_secret_validation_witness :
    (startApplication ⟨(""), ("iss"), ("aud"), 60⟩).isConfigError = true :=
  (C5_startup_secret_validation ⟨(""), ("iss"), ("aud"), 60⟩ (by decide)).1

/-- The entity written back by `TaskRepository.UpdateAsync` after an
ownership-scoped lookup keeps the looked-up record's `Id` and `UserId`,
and the written store only contains records whose `Id`/`UserId` pair
already occurred in the original store. -/
theorem frame_of_update (store : List Task) (changed existing : Task)
    (now taskId userId : Int)
    (hfind : TaskRepository.GetByIdAsync store taskId userId = some existing)
    (hid : changed.Id = existing.Id) (huid : changed.UserId = existing.UserId) :
    (∀ t ∈ (TaskRepository.UpdateAsync store changed now).2,
        ∃ t₀ ∈ store, t₀.Id = t.Id ∧ t₀.UserId = t.UserId)
    ∧ (∃ t₀ ∈ store,
        t₀.Id = (TaskRepository.UpdateAsync store changed now).1.Id
        ∧ t₀.UserId = (TaskRepository.UpdateAsync store changed now).1.UserId) := by
  have hmem : existing ∈ store := List.mem_of_find?_eq_some hfind
  constructor
  · intro t ht
    rcases TaskRepository.mem_updateAsync store changed now t ht with hEq | hIn
    · refine ⟨existing, hmem, ?_, ?_⟩
      · rw [hEq]
        exact hid.symm
      · rw [hEq]
        exact huid.symm
    · exact ⟨t, hIn, rfl, rfl⟩
  · refine ⟨existing, hmem, ?_, ?_⟩
    · simp [TaskRepository.UpdateAsync, hid]
    · simp [TaskRepository.UpdateAsync, huid]

/-- Owner-frame property of `TaskService.UpdateTaskAsync` over the
list-backed repository: every branch of the operation. -/
theorem updateTaskAsync_owner_frame (now : Int) (store : List Task)
    (taskId : Int) (title : String) (description : Option String)
    (userId : Int) :
    (∀ t ∈ (TaskService.UpdateTaskAsync (listTaskRepository now) store
        taskId title description userId).2,
      ∃ t₀ ∈ store, t₀.Id = t.Id ∧ t₀.UserId = t.UserId)
    ∧ (∀ t, (TaskService.UpdateTaskAsync (listTaskRepository now) store
        taskId title description userId).1.Task = some t →
      ∃ t₀ ∈ store, t₀.Id = t.Id ∧ t₀.UserId = t.UserId) := by
  rw [TaskService.UpdateTaskAsync]
  split_ifs
  all_goals try exact ⟨fun t ht => ⟨t, ht, rfl, rfl⟩,
    fun t ht => by simp [TaskResult.Failed] at ht⟩
  simp only [listTaskRepository]
  cases hf : TaskRepository.GetByIdAsync store taskId userId with
  | none =>
    simp only [hf]
    exact ⟨fun t ht => ⟨t, ht, rfl, rfl⟩,
      fun t ht => by simp [TaskResult.Failed] at ht⟩
  | some existing =>
    simp only [hf]
    have hfr := frame_of_update store
      ({ existing with Title := trimString title, Description := description.map trimString })
      existing now taskId userId hf rfl rfl
    refine ⟨hfr.1, ?_⟩
    intro t ht
    simp only [TaskResult.Successful, Option.some_inj] at ht
    rcases hfr.2 with ⟨t₀, h₀, hod, hou⟩
    exact ⟨t₀, h₀, ht ▸ hod, ht ▸ hou⟩

/-- Owner-frame property of `TaskService.UpdateTaskStatusAsync` over
the list-backed repository: every branch of the operation. -/
theorem updateTaskStatusAsync_owner_frame (now : Int) (store : List Task)
    (taskId : Int) (status : TaskStatus) (userId : Int) :
    (∀ t ∈ (TaskService.UpdateTaskStatusAsync (listTaskRepository now) store
        taskId status userId).2,
      ∃ t₀ ∈ store, t₀.Id = t.Id ∧ t₀.UserId = t.UserId)
    ∧ (∀ t, (TaskService.UpdateTaskStatusAsync (listTaskRepository now) store
        taskId status userId).1.Task = some t →
      ∃ t₀ ∈ store, t₀.Id = t.Id ∧ t₀.UserId = t.UserId) := by
  rw [TaskService.UpdateTaskStatusAsync]
  split_ifs
  all_goals try exact ⟨fun t ht => ⟨t, ht, rfl, rfl⟩,
    fun t ht => by simp [TaskResult.Failed] at ht⟩
  simp only [listTaskRepository]
  cases hf : TaskRepository.GetByIdAsync store taskId userId with
  | none =>
    simp only [hf]
    exact ⟨fun t ht => ⟨t, ht, rfl, rfl⟩,
      fun t ht => by simp [TaskResult.Failed] at ht⟩
  | some existing =>
    simp only [hf]
    have hfr := frame_of_update store { existing with Status := status }
      existing now taskId userId hf rfl rfl
    refine ⟨hfr.1, ?_⟩
    intro t ht
    simp only [TaskResult.Successful, Option.some_inj] at ht
    rcases hfr.2 with ⟨t₀, h₀, hod, hou⟩
    exact ⟨t₀, h₀, ht ▸ hod, ht ▸ hou⟩

/-- C9: neither `UpdateTaskAsync` (title/description) nor
`UpdateTaskStatusAsync` (status) ever changes a task's owner: every
record of the post-operation store, and the task returned by a
successful update, carries the `Id` and `UserId` of a record already in
the pre-operation store — the owner id is stamped at creation and no
operation of the core mutates it. -/
theorem C9_owner_never_changed (now : Int) (store : List Task)
    (taskId : Int) (title : String) (description : Option String)
    (userId : Int) (status : TaskStatus) :
    (∀ t ∈ (TaskService.UpdateTaskAsync (listTaskRepository now) store
        taskId title description userId).2,
      ∃ t₀ ∈ store, t₀.Id = t.Id ∧ t₀.UserId = t.UserId)
    ∧ (∀ t, (TaskService.UpdateTaskAsync (listTaskRepository now) store
        taskId title description userId).1.Task = some t →
      ∃ t₀ ∈ store, t₀.Id = t.Id ∧ t₀.UserId = t.UserId)
    ∧ (∀ t ∈ (TaskService.UpdateTaskStatusAsync (listTaskRepository now)
        store taskId status userId).2,
      ∃ t₀ ∈ store, t₀.Id = t.Id ∧ t₀.UserId = t.UserId)
    ∧ (∀ t, (TaskService.UpdateTaskStatusAsync (listTaskRepository now)
        store taskId status userId).1.Task = some t →
      ∃ t₀ ∈ store, t₀.Id = t.Id ∧ t₀.UserId = t.UserId) :=
  ⟨(updateTaskAsync_owner_frame now store taskId title description userId).1,
   (updateTaskAsync_owner_frame now store taskId title description userId).2,
   (updateTaskStatusAsync_owner_frame now store taskId status userId).1,
   (updateTaskStatusAsync_owner_frame now store taskId status userId).2⟩

theorem C9_owner_never_changed_witness :
    ∃ t₀ ∈ [(⟨1, ("a"), none, TaskStatus.ToDo, 2, 0, none⟩ : Task)],
      t₀.Id = (⟨1, ("new"), none, TaskStatus.ToDo, 2, 0, some 5⟩ : Task).Id
      ∧ t₀.UserId
        = (⟨1, ("new"), none, TaskStatus.ToDo, 2, 0, some 5⟩ : Task).UserId :=
  (C9_owner_never_changed 5 [⟨1, ("a"), none, TaskStatus.ToDo, 2, 0, none⟩]
      1 ("new") none 2 TaskStatus.Completed).1
    ⟨1, ("new"), none, TaskStatus.ToDo, 2, 0, some 5⟩ (by decide)

/-- C10: every `TaskService` operation invoked with a non-positive user
id, and every single-record operation invoked with a non-positive task
id, fails without touching the repository: the result is a failed
`TaskResult` and the returned store state is the input state, for every
repository implementation (the quantification over `repo` is the
embedding of "the repository is not invoked"). -/
theorem C10_nonpositive_ids_rejected {σ : Type} (repo : ITaskRepository σ)
    (s : σ) (taskId userId : Int) (title : String)
    (description : Option String) (status : TaskStatus) :
    (userId ≤ 0 →
      ((TaskService.GetAllTasksAsync repo s userId).1.Success = false
        ∧ (TaskService.GetAllTasksAsync repo s userId).2 = s)
      ∧ ((TaskService.GetTaskByIdAsync repo s taskId userId).1.Success = false
        ∧ (TaskService.GetTaskByIdAsync repo s taskId userId).2 = s)
      ∧ ((TaskService.CreateTaskAsync repo s title description userId).1.Success = false
        ∧ (TaskService.CreateTaskAsync repo s title description userId).2 = s)
      ∧ ((TaskService.UpdateTaskAsync repo s taskId title description userId).1.Success = false
        ∧ (TaskService.UpdateTaskAsync repo s taskId title description userId).2 = s)
      ∧ ((TaskService.UpdateTaskStatusAsync repo s taskId status userId).1.Success = false
        ∧ (TaskService.UpdateTaskStatusAsync repo s taskId status userId).2 = s)
      ∧ ((TaskService.DeleteTaskAsync repo s taskId userId).1.Success = false
        ∧ (TaskService.DeleteTaskAsync repo s taskId userId).2 = s)
      ∧ ((TaskService.GetTasksByStatusAsync repo s status userId).1.Success = false
        ∧ (TaskService.GetTasksByStatusAsync repo s status userId).2 = s))
    ∧ (taskId ≤ 0 →
      ((TaskService.GetTaskByIdAsync repo s taskId userId).1.Success = false
        ∧ (TaskService.GetTaskByIdAsync repo s taskId userId).2 = s)
      ∧ ((TaskService.UpdateTaskAsync repo s taskId title description userId).1.Success = false
        ∧ (TaskService.UpdateTaskAsync repo s taskId title description userId).2 = s)
      ∧ ((TaskService.UpdateTaskStatusAsync repo s taskId status userId).1.Success = false
        ∧ (TaskService.UpdateTaskStatusAsync repo s taskId status userId).2 = s)
      ∧ ((TaskService.DeleteTaskAsync repo s taskId userId).1.Success = false
        ∧ (TaskService.DeleteTaskAsync repo s taskId userId).2 = s)) := by
  constructor
  · intro hu
    refine ⟨?_, ?_, ?_, ?_, ?_, ?_, ?_⟩
    · rw [TaskService.GetAllTasksAsync]
      split_ifs <;> exact ⟨rfl, rfl⟩
    · rw [TaskService.GetTaskByIdAsync]
      split_ifs <;> exact ⟨rfl, rfl⟩
    · rw [TaskService.CreateTaskAsync]
      split_ifs <;> exact ⟨rfl, rfl⟩
    · rw [TaskService.UpdateTaskAsync]
      split_ifs <;> exact ⟨rfl, rfl⟩
    · rw [TaskService.UpdateTaskStatusAsync]
      split_ifs <;> exact ⟨rfl, rfl⟩
    · rw [TaskService.DeleteTaskAsync]
      split_ifs <;> exact ⟨rfl, rfl⟩
    · rw [TaskService.GetTasksByStatusAsync]
      split_ifs <;> exact ⟨rfl, rfl⟩
  · intro ht
    refine ⟨?_, ?_, ?_, ?_⟩
    · rw [TaskService.GetTaskByIdAsync]
      split_ifs <;> exact ⟨rfl, rfl⟩
    · rw [TaskService.UpdateTaskAsync]
      split_ifs <;> exact ⟨rfl, rfl⟩
    · rw [TaskService.UpdateTaskStatusAsync]
      split_ifs <;> exact ⟨rfl, rfl⟩
    · rw [TaskService.DeleteTaskAsync]
      split_ifs <;> exact ⟨rfl, rfl⟩

theorem C10_nonpositive_ids_rejected_witness :
    (TaskService.GetAllTasksAsync (listTaskRepository 0) [] 0).1.Success
      = false
    ∧ (TaskService.DeleteTaskAsync (listTaskRepository 0) [] 0 0).2
      = ([] : List Task) :=
  ⟨((C10_nonpositive_ids_rejected (listTaskRepository 0) [] 0 0 ("t")
      none TaskStatus.ToDo).1 (by decide)).1.1,
   (((C10_nonpositive_ids_rejected (listTaskRepository 0) [] 0 0 ("t")
      none TaskStatus.ToDo).2 (by decide)).2.2.2).2⟩

end TaskMgmt
